import Mathlib

/-!
Shallow embedding of the TimescaleDB TSL background-policy engine
(`tsl/src/bgw_policy/job.c`): the chunk-selection heuristic for automatic
reordering, the three policy executors (reorder, drop_chunks, materialize
continuous aggregate), the policy dispatcher with its enterprise license
gate, and the `alter_job_schedule` administrative function.

Catalog state and side effects are made explicit: a `World` record holds
the persistent tables the engine reads and writes, plus an event log that
records transaction boundaries, invocations of the external primitives
(reorder, drop_chunks, materialize), scheduler-visible writes and log
messages.  Fatal `ereport(ERROR, ...)`/`elog(ERROR, ...)` calls become
`Except.error` carrying the error kind and the events performed before the
error; a C NULL-pointer dereference is modelled as a distinct error kind.
-/

set_option maxHeartbeats 1000000

namespace TsBgwPolicy

/-- One slice (contiguous range) of an open dimension, together with the id
of the chunk backing it (slices and chunks are one-to-one). -/
structure DimensionSlice where
  slice_id : Int
  chunk_id : Int
  range_start : Int
  range_end : Int
  deriving DecidableEq

/-- An open (range/time) dimension of a hypertable.  Its slices are listed
newest-to-oldest, the order in which a backward catalog scan enumerates
them. -/
structure Dimension where
  id : Int
  slices : List DimensionSlice
  deriving DecidableEq

structure Hypertable where
  id : Int
  schema_name : String
  table_name : String
  open_dim : Dimension
  deriving DecidableEq

/-- `hyperspace_get_open_dimension(ht->space, 0)`: the primary open
dimension. -/
def hyperspace_get_open_dimension (ht : Hypertable) : Dimension :=
  ht.open_dim

/-- One row of the `bgw_policy_chunk_stats` metadata table: job J ran
against chunk C at time T. -/
structure ChunkStatRecord where
  job_id : Int
  chunk_id : Int
  last_time_job_run : Int
  deriving DecidableEq

/-- Has job `job_id` an execution record for chunk `chunk_id`? -/
def chunk_has_executed_job (stats : List ChunkStatRecord) (job_id chunk_id : Int) : Bool :=
  stats.any (fun r => r.job_id == job_id && r.chunk_id == chunk_id)

/-- Modelled from the spec: `ts_dimension_slice_nth_latest_slice` is only
declared in this repository slice, not defined.  Per the Chunk Selection
Heuristic spec (4.3), slices are enumerated newest-to-oldest, the first
`n` are skipped, and when fewer than `n + 1` slices exist nothing is
eligible; so the call yields the `(n+1)`-th newest slice, or `none` when
fewer than `n + 1` slices exist. -/
def ts_dimension_slice_nth_latest_slice (d : Dimension) (n : Nat) : Option DimensionSlice :=
  d.slices.get? n

/-- Modelled from the spec: `ts_dimension_slice_oldest_chunk_without_executed_job`
is only declared in this repository slice, not defined.  Per 4.3: among all
chunks whose range-start is ≤ the threshold, the one with the smallest
range-start (oldest) that has no execution record for this job; `-1` when
no such chunk exists. -/
def ts_dimension_slice_oldest_chunk_without_executed_job
    (stats : List ChunkStatRecord) (job_id : Int) (d : Dimension)
    (range_start_threshold : Int) : Int :=
  match d.slices.filter
      (fun s => decide (s.range_start ≤ range_start_threshold)
          && !chunk_has_executed_job stats job_id s.chunk_id) with
  | [] => -1
  | s :: rest =>
      (rest.foldl (fun best t => if t.range_start < best.range_start then t else best) s).chunk_id

/-- `#define REORDER_SKIP_RECENT_DIM_SLICES_N 3` -/
def REORDER_SKIP_RECENT_DIM_SLICES_N : Nat := 3

/-- `get_chunk_id_to_reorder`: selection heuristic for the reorder policy.
Returns the id of a chunk to reorder, or `-1` when nothing is eligible. -/
def get_chunk_id_to_reorder (stats : List ChunkStatRecord) (job_id : Int)
    (ht : Hypertable) : Int :=
  let time_dimension := hyperspace_get_open_dimension ht
  match ts_dimension_slice_nth_latest_slice time_dimension REORDER_SKIP_RECENT_DIM_SLICES_N with
  | none => -1
  | some nth_dimension =>
      ts_dimension_slice_oldest_chunk_without_executed_job stats job_id time_dimension
        nth_dimension.range_start

/-- The job-type tag (`job->bgw_type`); `unknown` stands for any value
hitting the `default:` branch of the C switches. -/
inductive BgwJobType where
  | reorder
  | drop_chunks
  | continuous_aggregate
  | unknown
  deriving DecidableEq

/-- A row of `bgw_job` (the fields this engine touches). -/
structure BgwJob where
  id : Int
  bgw_type : BgwJobType
  schedule_interval : Int
  max_runtime : Int
  max_retries : Int
  retry_period : Int
  deriving DecidableEq

/-- A row of `bgw_job_stat`: the per-job run statistics the scheduler owns. -/
structure BgwJobStat where
  job_id : Int
  last_start : Int
  next_start : Int
  deriving DecidableEq

/-- A row of the reorder-policy arguments table. -/
structure BgwPolicyReorder where
  job_id : Int
  hypertable_id : Int
  hypertable_index_name : String
  deriving DecidableEq

/-- A row of the drop-chunks-policy arguments table. -/
structure BgwPolicyDropChunks where
  job_id : Int
  hypertable_id : Int
  older_than : Int
  cascade : Bool
  cascade_to_materializations : Bool
  deriving DecidableEq

/-- A chunk's physical identity (as resolved by `ts_chunk_get_by_id`). -/
structure Chunk where
  id : Int
  table_id : Int
  deriving DecidableEq

/-- Observable side effects of one engine invocation. -/
inductive Event where
  | txnStart
  | txnCommit
  | pushSnapshot
  | popSnapshot
  | reorderChunk (chunk_id : Int)
  | dropChunks (hypertable_id : Int) (older_than_cutoff : Int)
      (cascade : Bool) (cascade_to_materializations : Bool)
  | materialize (materialization_id : Int)
  | setNextStart (job_id : Int) (next_start : Int)
  | logNotice (msg : String)
  | logMsg (msg : String)
  deriving DecidableEq

/-- Error kinds of the fatal exits (`ereport`/`elog` error codes, plus a
distinct kind for a C NULL-pointer dereference). -/
inductive ErrKind where
  | ts_internal_error
  | ts_hypertable_not_exist
  | undefined_object
  | internal_elog
  | license_not_enabled
  | null_dereference
  | insufficient_privilege
  deriving DecidableEq

/-- A fatal error: its kind and the events performed before it was raised
(the transaction, if owned, is unwound, but invocations of external
primitives remain observable). -/
structure Err where
  kind : ErrKind
  events : List Event
  deriving DecidableEq

/-- The catalog state this engine reads and writes, plus the event log. -/
structure World where
  inTxn : Bool
  licenseEnterpriseEnabled : Bool
  currentTime : Int
  jobs : List BgwJob
  jobStats : List BgwJobStat
  reorderPolicies : List BgwPolicyReorder
  dropPolicies : List BgwPolicyDropChunks
  hypertables : List Hypertable
  chunks : List Chunk
  chunkStats : List ChunkStatRecord
  materializations : List (Int × Int)
  permissionDenied : List Int
  events : List Event
  deriving DecidableEq

instance {ε α : Type} [DecidableEq ε] [DecidableEq α] : DecidableEq (Except ε α) := fun x y =>
  match x, y with
  | .error a, .error b =>
      if h : a = b then .isTrue (h ▸ rfl)
      else .isFalse fun hc => h (Except.error.inj hc)
  | .error _, .ok _ => .isFalse fun hc => Except.noConfusion hc
  | .ok _, .error _ => .isFalse fun hc => Except.noConfusion hc
  | .ok a, .ok b =>
      if h : a = b then .isTrue (h ▸ rfl)
      else .isFalse fun hc => h (Except.ok.inj hc)

/-- Append an event to the log. -/
def emit (w : World) (e : Event) : World :=
  { w with events := w.events ++ [e] }

def ts_bgw_job_stat_find (w : World) (job_id : Int) : Option BgwJobStat :=
  w.jobStats.find? (fun s => s.job_id == job_id)

/-- `ts_bgw_job_stat_set_next_start`: catalog write of the job's next
scheduled start, visible to the scheduler. -/
def ts_bgw_job_stat_set_next_start (w : World) (job_id next : Int) : World :=
  emit
    { w with jobStats :=
        w.jobStats.map (fun s => if s.job_id == job_id then { s with next_start := next } else s) }
    (.setNextStart job_id next)

/-- The `elog(LOG, ...)` message of `enable_fast_restart`. -/
def fastRestartLogMsg (job_name : String) : String :=
  "the " ++ job_name ++ " job is scheduled to run again immediately"

/-- `enable_fast_restart`: sets the job's next start to its last start.
The C code dereferences the result of `ts_bgw_job_stat_find` without a
NULL check, so a missing run-stat row is a NULL dereference. -/
def enable_fast_restart (w : World) (job : BgwJob) (job_name : String) : Except Err World :=
  match ts_bgw_job_stat_find w job.id with
  | none => .error ⟨.null_dereference, w.events⟩
  | some job_stat =>
      .ok (emit (ts_bgw_job_stat_set_next_start w job.id job_stat.last_start)
            (.logMsg (fastRestartLogMsg job_name)))

def ts_bgw_policy_reorder_find_by_job (w : World) (job_id : Int) : Option BgwPolicyReorder :=
  w.reorderPolicies.find? (fun p => p.job_id == job_id)

def ts_bgw_policy_drop_chunks_find_by_job (w : World) (job_id : Int) : Option BgwPolicyDropChunks :=
  w.dropPolicies.find? (fun p => p.job_id == job_id)

def ts_hypertable_get_by_id (w : World) (hypertable_id : Int) : Option Hypertable :=
  w.hypertables.find? (fun h => h.id == hypertable_id)

def ts_chunk_get_by_id (w : World) (chunk_id : Int) : Option Chunk :=
  w.chunks.find? (fun c => c.id == chunk_id)

/-- `ts_bgw_policy_chunk_stats_record_job_run`: append the execution
record. -/
def ts_bgw_policy_chunk_stats_record_job_run (w : World) (job_id chunk_id time : Int) : World :=
  { w with chunkStats := w.chunkStats ++ [⟨job_id, chunk_id, time⟩] }

def ts_timer_get_current_timestamp (w : World) : Int :=
  w.currentTime

/-- `if (started) CommitTransactionCommand();` -/
def commitTransactionIfStarted (started : Bool) (w : World) : World :=
  if started then emit { w with inTxn := false } .txnCommit else w

/-- `execute_reorder_policy(job, reorder_func, fast_continue)`.  The
external reorder primitive is recorded as a `reorderChunk` event. -/
def execute_reorder_policy (job : BgwJob) (fast_continue : Bool) (w0 : World) :
    Except Err (World × Bool) :=
  let job_id := job.id
  let started := !w0.inTxn
  let w1 := if started then emit { w0 with inTxn := true } .txnStart else w0
  match ts_bgw_policy_reorder_find_by_job w1 job_id with
  | none => .error ⟨.ts_internal_error, w1.events⟩
  | some args =>
    match ts_hypertable_get_by_id w1 args.hypertable_id with
    | none => .error ⟨.null_dereference, w1.events⟩
    | some ht =>
      let chunk_id := get_chunk_id_to_reorder w1.chunkStats args.job_id ht
      if chunk_id = -1 then
        let w2 := emit w1 (.logNotice ("no chunks need reordering"))
        .ok (commitTransactionIfStarted started w2, true)
      else
        match ts_chunk_get_by_id w1 chunk_id with
        | none => .error ⟨.null_dereference, w1.events⟩
        | some chunk =>
          let w2 := emit w1 (.reorderChunk chunk.id)
          let w3 := ts_bgw_policy_chunk_stats_record_job_run w2 args.job_id chunk_id
              (ts_timer_get_current_timestamp w2)
          if fast_continue && !(get_chunk_id_to_reorder w3.chunkStats args.job_id ht == -1) then
            match enable_fast_restart w3 job ("reorder") with
            | .error e => .error e
            | .ok w4 => .ok (commitTransactionIfStarted started w4, true)
          else
            .ok (commitTransactionIfStarted started w3, true)

/-- `execute_drop_chunks_policy(job_id)`.  The external drop primitive
`ts_chunk_do_drop_chunks` is recorded as a `dropChunks` event. -/
def execute_drop_chunks_policy (job_id : Int) (w0 : World) : Except Err (World × Bool) :=
  let started := !w0.inTxn
  let w1 := if started then emit (emit { w0 with inTxn := true } .txnStart) .pushSnapshot else w0
  match ts_bgw_policy_drop_chunks_find_by_job w1 job_id with
  | none => .error ⟨.ts_internal_error, w1.events⟩
  | some args =>
    match ts_hypertable_get_by_id w1 args.hypertable_id with
    | none => .error ⟨.ts_hypertable_not_exist, w1.events⟩
    | some hypertable =>
      let cutoff := ts_timer_get_current_timestamp w1 - args.older_than
      let w2 := emit w1
        (.dropChunks hypertable.id cutoff args.cascade args.cascade_to_materializations)
      if started then
        .ok (emit { (emit w2 .popSnapshot) with inTxn := false } .txnCommit, true)
      else
        .ok (w2, true)

/-- `ts_continuous_agg_job_find_materializtion_by_job_id` (name kept with
the source's spelling): the materialization id for a job, `-1` when none
is associated. -/
def ts_continuous_agg_job_find_materializtion_by_job_id (w : World) (job_id : Int) : Int :=
  match w.materializations.find? (fun p => p.1 == job_id) with
  | none => -1
  | some p => p.2

/-- `execute_materialize_continuous_aggregate(job)`.  The external
materialization engine is recorded as a `materialize` event; the flag it
returns (`finshed_all_materialization` in the source) is a parameter. -/
def execute_materialize_continuous_aggregate (finished_flag : Bool) (job : BgwJob)
    (w0 : World) : Except Err (World × Bool) :=
  let started := !w0.inTxn
  let w1 := if started then emit { w0 with inTxn := true } .txnStart else w0
  let materialization_id := ts_continuous_agg_job_find_materializtion_by_job_id w1 job.id
  if materialization_id < 0 then
    .error ⟨.internal_elog, w1.events⟩
  else
    let w2 := emit { w1 with inTxn := false } .txnCommit
    let finshed_all_materialization := finished_flag
    let w3 := emit w2 (.materialize materialization_id)
    let w4 := emit { w3 with inTxn := true } .txnStart
    match (if !finshed_all_materialization
           then enable_fast_restart w4 job ("materialize continuous aggregate")
           else .ok w4) with
    | .error e => .error e
    | .ok w5 => .ok (commitTransactionIfStarted started w5, true)

/-- `bgw_policy_job_requires_enterprise_license`: whether the job type
needs the enterprise entitlement; unknown types are a fatal internal
error. -/
def bgw_policy_job_requires_enterprise_license (job : BgwJob) (w : World) : Except Err Bool :=
  match job.bgw_type with
  | .reorder => .ok true
  | .drop_chunks => .ok true
  | .continuous_aggregate => .ok false
  | .unknown => .error ⟨.internal_elog, w.events⟩

/-- `license_enforce_enterprise_enabled`: fatal when the enterprise
entitlement is inactive. -/
def license_enforce_enterprise_enabled (w : World) : Except Err Unit :=
  if w.licenseEnterpriseEnabled then .ok () else .error ⟨.license_not_enabled, w.events⟩

/-- `tsl_bgw_policy_job_execute`: the dispatcher. -/
def tsl_bgw_policy_job_execute (finished_flag : Bool) (job : BgwJob) (w : World) :
    Except Err (World × Bool) :=
  match bgw_policy_job_requires_enterprise_license job w with
  | .error e => .error e
  | .ok needs_license =>
    match (if needs_license then license_enforce_enterprise_enabled w else .ok ()) with
    | .error e => .error e
    | .ok _ =>
      match job.bgw_type with
      | .reorder => execute_reorder_policy job true w
      | .drop_chunks => execute_drop_chunks_policy job.id w
      | .continuous_aggregate => execute_materialize_continuous_aggregate finished_flag job w
      | .unknown => .error ⟨.internal_elog, w.events⟩

/-- The SQL-level arguments of `alter_job_schedule` (a `none` optional
field is a NULL argument, i.e. `PG_ARGISNULL`). -/
structure AlterJobScheduleArgs where
  job_id : Int
  schedule_interval : Option Int
  max_runtime : Option Int
  max_retries : Option Int
  retry_period : Option Int
  if_exists : Bool
  deriving DecidableEq

/-- The five-column record `alter_job_schedule` returns. -/
structure AlterJobScheduleTuple where
  id : Int
  schedule_interval : Int
  max_runtime : Int
  max_retries : Int
  retry_period : Int
  deriving DecidableEq

def ts_bgw_job_find (w : World) (job_id : Int) : Option BgwJob :=
  w.jobs.find? (fun j => j.id == job_id)

/-- `ts_bgw_job_permission_check`: fatal when the caller may not
administer the job. -/
def ts_bgw_job_permission_check (w : World) (job : BgwJob) : Except Err Unit :=
  if w.permissionDenied.contains job.id then .error ⟨.insufficient_privilege, w.events⟩
  else .ok ()

def ts_bgw_job_update_by_id (w : World) (job_id : Int) (job : BgwJob) : World :=
  { w with jobs := w.jobs.map (fun j => if j.id == job_id then job else j) }

/-- `bgw_policy_alter_job_schedule`: partial update of a job's schedule
fields.  Returns the updated record, or `none` (SQL NULL) when the job is
missing and `if_exists` is set. -/
def bgw_policy_alter_job_schedule (a : AlterJobScheduleArgs) (w : World) :
    Except Err (World × Option AlterJobScheduleTuple) :=
  match license_enforce_enterprise_enabled w with
  | .error e => .error e
  | .ok _ =>
    match ts_bgw_job_find w a.job_id with
    | none =>
      if a.if_exists then
        .ok (emit w (.logNotice ("cannot alter policy schedule, policy not found, skipping")),
             none)
      else
        .error ⟨.undefined_object, w.events⟩
    | some job0 =>
      match ts_bgw_job_permission_check w job0 with
      | .error e => .error e
      | .ok _ =>
        let job1 := { job0 with
          schedule_interval := a.schedule_interval.getD job0.schedule_interval
          max_runtime := a.max_runtime.getD job0.max_runtime
          max_retries := a.max_retries.getD job0.max_retries
          retry_period := a.retry_period.getD job0.retry_period }
        let w1 := ts_bgw_job_update_by_id w a.job_id job1
        .ok (w1, some ⟨job1.id, job1.schedule_interval, job1.max_runtime,
                       job1.max_retries, job1.retry_period⟩)

/-- Is an event a transaction-boundary event (start or commit)? -/
def isTxnBoundaryEvent : Event → Bool
  | .txnStart => true
  | .txnCommit => true
  | _ => false

/-- Is an event an invocation of the drop-chunks primitive? -/
def isDropChunksEvent : Event → Bool
  | .dropChunks _ _ _ _ => true
  | _ => false

/-! ### Concrete fixtures used by witnesses and counterexamples -/

/-- A hypertable (id 77) whose open dimension has only three slices. -/
def htThree : Hypertable :=
  ⟨77, ("public"), ("metrics_small"),
   ⟨7, [⟨3, 103, 20, 30⟩, ⟨2, 102, 10, 20⟩, ⟨1, 101, 0, 10⟩]⟩⟩

/-- A hypertable (id 88) whose open dimension has six slices, listed
newest-to-oldest; slice `k` is backed by chunk `100 + k`. -/
def htSix : Hypertable :=
  ⟨88, ("public"), ("metrics"),
   ⟨8, [⟨6, 106, 50, 60⟩, ⟨5, 105, 40, 50⟩, ⟨4, 104, 30, 40⟩,
        ⟨3, 103, 20, 30⟩, ⟨2, 102, 10, 20⟩, ⟨1, 101, 0, 10⟩]⟩⟩

def jobReorder : BgwJob := ⟨1, .reorder, 100, 10, 3, 5⟩
def jobDrop : BgwJob := ⟨2, .drop_chunks, 100, 10, 3, 5⟩
def jobMat : BgwJob := ⟨11, .continuous_aggregate, 100, 10, 3, 5⟩
def jobUnknown : BgwJob := ⟨9, .unknown, 100, 10, 3, 5⟩

/-- A world with empty catalogs. -/
def emptyWorld : World :=
  { inTxn := false, licenseEnterpriseEnabled := true, currentTime := 1000,
    jobs := [], jobStats := [], reorderPolicies := [], dropPolicies := [],
    hypertables := [], chunks := [], chunkStats := [], materializations := [],
    permissionDenied := [], events := [] }

/-- Reorder-job world: six-slice hypertable, no chunk yet reordered, a run
stat for job 1, invoked standalone (no transaction open). -/
def wReorderRun : World :=
  { emptyWorld with
    jobs := [jobReorder],
    jobStats := [⟨1, 900, 950⟩],
    reorderPolicies := [⟨1, 88, ("metrics_time_idx")⟩],
    hypertables := [htSix],
    chunks := [⟨101, 201⟩, ⟨102, 202⟩, ⟨103, 203⟩] }

/-- Reorder-job world invoked inside an already-open transaction, whose
hypertable has only three slices (the no-op path). -/
def wReorderOpenNoWork : World :=
  { emptyWorld with
    inTxn := true,
    jobs := [jobReorder],
    jobStats := [⟨1, 900, 950⟩],
    reorderPolicies := [⟨1, 77, ("metrics_time_idx")⟩],
    hypertables := [htThree] }

/-- Materialize-job world invoked inside an already-open transaction. -/
def wMatOpen : World :=
  { emptyWorld with
    inTxn := true,
    jobs := [jobMat],
    jobStats := [⟨11, 900, 950⟩],
    materializations := [(11, 21)] }

/-- Materialize-job world invoked standalone. -/
def wMatClosed : World :=
  { wMatOpen with inTxn := false }

/-- Drop-chunks world whose policy points at hypertable 99, which no
longer exists. -/
def wDropMissingTable : World :=
  { emptyWorld with
    jobs := [jobDrop],
    dropPolicies := [⟨2, 99, 30, false, false⟩] }

/-- Drop-chunks world whose target hypertable exists, invoked inside an
already-open transaction. -/
def wDropOpen : World :=
  { emptyWorld with
    inTxn := true,
    jobs := [jobDrop],
    dropPolicies := [⟨2, 88, 30, false, false⟩],
    hypertables := [htSix] }

/-- Drop-chunks world whose target hypertable exists, invoked standalone. -/
def wDropClosed : World :=
  { wDropOpen with inTxn := false }

/-- World for the schedule-mutation claims: one persisted job (id 5). -/
def wAlter : World :=
  { emptyWorld with jobs := [⟨5, .reorder, 100, 10, 3, 5⟩] }

/-- World with the enterprise license disabled. -/
def wNoLicense : World :=
  { wAlter with licenseEnterpriseEnabled := false }

/-- World with no run-stat row for any job. -/
def wNoStat : World :=
  { emptyWorld with jobs := [jobReorder] }

/-- The world produced by running the reorder executor on `wReorderRun`:
chunk 101 reordered and recorded, fast restart requested (next start set
to the last start 900), transaction owned and committed. -/
def wReorderRunResult : World :=
  { wReorderRun with
    jobStats := [⟨1, 900, 900⟩],
    chunkStats := [⟨1, 101, 1000⟩],
    events := [Event.txnStart, Event.reorderChunk 101, Event.setNextStart 1 900,
               Event.logMsg (fastRestartLogMsg ("reorder")), Event.txnCommit] }

/-- The world produced by running the materialize executor on `wMatClosed`
with an unfinished materialization: fast restart requested. -/
def wMatClosedResult : World :=
  { wMatClosed with
    jobStats := [⟨11, 900, 900⟩],
    events := [Event.txnStart, Event.txnCommit, Event.materialize 21, Event.txnStart,
               Event.setNextStart 11 900,
               Event.logMsg (fastRestartLogMsg ("materialize continuous aggregate")),
               Event.txnCommit] }

/-- The world produced by running the reorder executor on
`wReorderOpenNoWork` (no eligible chunk, caller-owned transaction). -/
def wReorderOpenNoWorkResult : World :=
  { wReorderOpenNoWork with events := [Event.logNotice ("no chunks need reordering")] }

/-! ### General lemmas -/

/-- A left fold with a binary choice function stays inside the folded
elements (plus the seed). -/
theorem foldl_choice_mem {α : Type} (f : α → α → α)
    (hf : ∀ a b, f a b = a ∨ f a b = b) :
    ∀ (l : List α) (s : α), l.foldl f s ∈ s :: l := by
  intro l
  induction l with
  | nil => intro s; exact List.mem_singleton.mpr rfl
  | cons t rest ih =>
      intro s
      have h : rest.foldl f (f s t) ∈ f s t :: rest := ih (f s t)
      have hstep : (t :: rest).foldl f s = rest.foldl f (f s t) := rfl
      rw [hstep]
      rcases List.mem_cons.mp h with h1 | h1
      · rcases hf s t with h2 | h2
        · rw [h1, h2]; exact List.mem_cons_self _ _
        · rw [h1, h2]; exact List.mem_cons.mpr (Or.inr (List.mem_cons_self _ _))
      · exact List.mem_cons.mpr (Or.inr (List.mem_cons.mpr (Or.inr h1)))

/-- The oldest-eligible-chunk scan returns `-1` or the chunk id of a slice
of the dimension that passes the eligibility filter. -/
theorem oldest_chunk_spec (stats : List ChunkStatRecord) (job_id : Int)
    (d : Dimension) (thr : Int) :
    ts_dimension_slice_oldest_chunk_without_executed_job stats job_id d thr = -1 ∨
    ∃ s, s ∈ d.slices ∧ s.range_start ≤ thr ∧
      chunk_has_executed_job stats job_id s.chunk_id = false ∧
      ts_dimension_slice_oldest_chunk_without_executed_job stats job_id d thr = s.chunk_id := by
  cases he : d.slices.filter
      (fun s => decide (s.range_start ≤ thr)
          && !chunk_has_executed_job stats job_id s.chunk_id) with
  | nil =>
      left
      unfold ts_dimension_slice_oldest_chunk_without_executed_job
      rw [he]
  | cons s rest =>
      right
      have hmem :
          rest.foldl (fun best t => if t.range_start < best.range_start then t else best) s
            ∈ s :: rest := by
        refine foldl_choice_mem _ (fun a b => ?_) rest s
        by_cases h : b.range_start < a.range_start <;> simp [h]
      rw [← he] at hmem
      have hmem2 := List.mem_filter.mp hmem
      have hcond := hmem2.2
      simp only [Bool.and_eq_true, decide_eq_true_eq, Bool.not_eq_true'] at hcond
      refine ⟨_, hmem2.1, hcond.1, hcond.2, ?_⟩
      unfold ts_dimension_slice_oldest_chunk_without_executed_job
      rw [he]

/-! ### Executor inversion lemmas -/

/-- Inversion for successful drop-chunks-executor runs: the policy and the
hypertable were found, the run reports success, the execution-record table
and run stats are untouched, and the events are exactly the transaction
scaffolding (only when standalone) around one drop-primitive call. -/
theorem execute_drop_chunks_policy_ok_inv (job_id : Int) (w : World) (r : World × Bool)
    (h : execute_drop_chunks_policy job_id w = .ok r) :
    r.2 = true ∧
    ∃ args ht,
      ts_bgw_policy_drop_chunks_find_by_job w job_id = some args ∧
      ts_hypertable_get_by_id w args.hypertable_id = some ht ∧
      r.1.chunkStats = w.chunkStats ∧
      r.1.jobStats = w.jobStats ∧
      r.1.events = w.events ++
        (if w.inTxn then
          [Event.dropChunks ht.id (w.currentTime - args.older_than) args.cascade
            args.cascade_to_materializations]
         else
          [Event.txnStart, Event.pushSnapshot,
           Event.dropChunks ht.id (w.currentTime - args.older_than) args.cascade
             args.cascade_to_materializations,
           Event.popSnapshot, Event.txnCommit]) := by
  unfold execute_drop_chunks_policy at h
  cases hIn : w.inTxn <;>
    simp only [hIn, Bool.not_true, Bool.not_false, Bool.false_eq_true, Bool.true_eq_false,
      if_true, if_false, ite_true, ite_false,
      ts_bgw_policy_drop_chunks_find_by_job, ts_hypertable_get_by_id,
      ts_timer_get_current_timestamp, emit] at h <;>
  · split at h
    · exact absurd h (by simp)
    · rename_i args hargs
      split at h
      · exact absurd h (by simp)
      · rename_i ht hht
        cases h
        refine ⟨rfl, args, ht, ?_, ?_, ?_, ?_, ?_⟩ <;>
          simp [ts_bgw_policy_drop_chunks_find_by_job, ts_hypertable_get_by_id, hargs, hht, hIn,
            List.append_assoc]

/-- Inversion for successful materialize-executor runs: a materialization
id was found, the run reports success, the execution-record table is
untouched, the transaction is committed and restarted around the
materialization call regardless of ownership, and the run-stat write
happens exactly when the materialization reports unfinished work. -/
theorem execute_materialize_ok_inv (f : Bool) (job : BgwJob) (w : World) (r : World × Bool)
    (h : execute_materialize_continuous_aggregate f job w = .ok r) :
    r.2 = true ∧
    0 ≤ ts_continuous_agg_job_find_materializtion_by_job_id w job.id ∧
    r.1.chunkStats = w.chunkStats ∧
    ((f = true ∧ r.1.jobStats = w.jobStats ∧
        r.1.events = w.events ++
          (if w.inTxn then
            [Event.txnCommit,
             Event.materialize (ts_continuous_agg_job_find_materializtion_by_job_id w job.id),
             Event.txnStart]
           else
            [Event.txnStart, Event.txnCommit,
             Event.materialize (ts_continuous_agg_job_find_materializtion_by_job_id w job.id),
             Event.txnStart, Event.txnCommit])) ∨
     (f = false ∧ ∃ stat, ts_bgw_job_stat_find w job.id = some stat ∧
        r.1.jobStats = w.jobStats.map (fun s =>
          if s.job_id == job.id then { s with next_start := stat.last_start } else s) ∧
        r.1.events = w.events ++
          (if w.inTxn then
            [Event.txnCommit,
             Event.materialize (ts_continuous_agg_job_find_materializtion_by_job_id w job.id),
             Event.txnStart, Event.setNextStart job.id stat.last_start,
             Event.logMsg (fastRestartLogMsg ("materialize continuous aggregate"))]
           else
            [Event.txnStart, Event.txnCommit,
             Event.materialize (ts_continuous_agg_job_find_materializtion_by_job_id w job.id),
             Event.txnStart, Event.setNextStart job.id stat.last_start,
             Event.logMsg (fastRestartLogMsg ("materialize continuous aggregate")),
             Event.txnCommit]))) := by
  unfold execute_materialize_continuous_aggregate at h
  cases hIn : w.inTxn <;>
    simp only [hIn, Bool.not_true, Bool.not_false, Bool.false_eq_true, Bool.true_eq_false,
      if_true, if_false, ite_true, ite_false, emit, commitTransactionIfStarted,
      ts_continuous_agg_job_find_materializtion_by_job_id, enable_fast_restart,
      ts_bgw_job_stat_find, ts_bgw_job_stat_set_next_start] at h <;>
  · simp only [ts_continuous_agg_job_find_materializtion_by_job_id, ts_bgw_job_stat_find]
    cases hfind : w.materializations.find? (fun p => p.1 == job.id) with
    | none =>
        rw [hfind] at h
        simp at h
    | some p =>
        rw [hfind] at h
        split at h
        · exact absurd h (by simp)
        · rename_i hmid
          cases hf : f <;> simp only [hf, Bool.not_true, Bool.not_false, Bool.false_eq_true,
            Bool.true_eq_false, if_true, if_false, ite_true, ite_false] at h
          · cases hstat : w.jobStats.find? (fun s => s.job_id == job.id) with
            | none => rw [hstat] at h; exact absurd h (by simp)
            | some stat =>
                rw [hstat] at h
                cases h
                refine ⟨rfl, by omega, by simp, Or.inr ⟨rfl, stat, rfl, by simp, ?_⟩⟩
                simp [hIn, List.append_assoc]
          · cases h
            refine ⟨rfl, by omega, by simp, Or.inl ⟨rfl, by simp, ?_⟩⟩
            simp [hIn, List.append_assoc]

/-- Inversion for successful reorder-executor runs: the policy and the
hypertable were found, the run reports success, and the run is either the
no-op path (nothing eligible, no record appended), the reorder path
without fast restart, or the reorder path followed by a fast-restart
request (which presupposes a run-stat row). -/
theorem execute_reorder_policy_ok_inv (job : BgwJob) (fc : Bool) (w : World) (r : World × Bool)
    (h : execute_reorder_policy job fc w = .ok r) :
    r.2 = true ∧
    ∃ args ht,
      ts_bgw_policy_reorder_find_by_job w job.id = some args ∧
      ts_hypertable_get_by_id w args.hypertable_id = some ht ∧
      ((get_chunk_id_to_reorder w.chunkStats args.job_id ht = -1 ∧
        r.1.chunkStats = w.chunkStats ∧ r.1.jobStats = w.jobStats ∧
        r.1.events = w.events ++
          (if w.inTxn then [Event.logNotice ("no chunks need reordering")]
           else [Event.txnStart, Event.logNotice ("no chunks need reordering"),
                 Event.txnCommit])) ∨
       (∃ chunk, get_chunk_id_to_reorder w.chunkStats args.job_id ht ≠ -1 ∧
          ts_chunk_get_by_id w (get_chunk_id_to_reorder w.chunkStats args.job_id ht) =
            some chunk ∧
          r.1.chunkStats = w.chunkStats ++
            [⟨args.job_id, get_chunk_id_to_reorder w.chunkStats args.job_id ht,
              w.currentTime⟩] ∧
          (((fc && !(get_chunk_id_to_reorder r.1.chunkStats args.job_id ht == -1)) = false ∧
             r.1.jobStats = w.jobStats ∧
             r.1.events = w.events ++
               (if w.inTxn then [Event.reorderChunk chunk.id]
                else [Event.txnStart, Event.reorderChunk chunk.id, Event.txnCommit])) ∨
           ((fc && !(get_chunk_id_to_reorder r.1.chunkStats args.job_id ht == -1)) = true ∧
             ∃ stat, ts_bgw_job_stat_find w job.id = some stat ∧
               r.1.jobStats = w.jobStats.map (fun s =>
                 if s.job_id == job.id then { s with next_start := stat.last_start } else s) ∧
               r.1.events = w.events ++
                 (if w.inTxn then
                   [Event.reorderChunk chunk.id, Event.setNextStart job.id stat.last_start,
                    Event.logMsg (fastRestartLogMsg ("reorder"))]
                  else
                   [Event.txnStart, Event.reorderChunk chunk.id,
                    Event.setNextStart job.id stat.last_start,
                    Event.logMsg (fastRestartLogMsg ("reorder")),
                    Event.txnCommit]))))) := by
  unfold execute_reorder_policy at h
  cases hIn : w.inTxn <;>
    simp only [hIn, Bool.not_true, Bool.not_false, Bool.false_eq_true, Bool.true_eq_false,
      if_true, if_false, ite_true, ite_false, emit, commitTransactionIfStarted,
      ts_bgw_policy_reorder_find_by_job, ts_hypertable_get_by_id, ts_chunk_get_by_id,
      ts_timer_get_current_timestamp, ts_bgw_policy_chunk_stats_record_job_run,
      enable_fast_restart, ts_bgw_job_stat_find, ts_bgw_job_stat_set_next_start] at h <;>
  · simp only [ts_bgw_policy_reorder_find_by_job, ts_hypertable_get_by_id, ts_chunk_get_by_id,
      ts_bgw_job_stat_find]
    split at h
    · exact absurd h (by simp)
    · rename_i args hargs
      split at h
      · exact absurd h (by simp)
      · rename_i ht hht
        refine ⟨?_, args, ht, hargs, hht, ?_⟩
        · split at h
          · cases h; rfl
          · split at h
            · exact absurd h (by simp)
            · split at h
              · split at h
                · exact absurd h (by simp)
                · cases h; rfl
              · cases h; rfl
        · split at h
          · rename_i hcid
            cases h
            exact Or.inl ⟨hcid, by simp, by simp, by simp [hIn, List.append_assoc]⟩
          · rename_i hcid
            split at h
            · exact absurd h (by simp)
            · rename_i chunk hchunk
              refine Or.inr ⟨chunk, hcid, hchunk, ?_⟩
              split at h
              · rename_i hfast
                split at h
                · exact absurd h (by simp)
                · rename_i w5 hstat
                  split at hstat
                  · exact absurd hstat (by simp)
                  · rename_i stat hfind
                    cases hstat
                    cases h
                    refine ⟨by simp, Or.inr ⟨?_, stat, hfind, by simp, ?_⟩⟩
                    · simpa using hfast
                    · simp [hIn, List.append_assoc]
              · rename_i hfast
                cases h
                refine ⟨by simp, Or.inl ⟨?_, by simp, ?_⟩⟩
                · simpa using hfast
                · simp [hIn, List.append_assoc]

/-! ### Claim theorems -/

/-- C1: when the primary open dimension has fewer than 4 slices, the
selection heuristic returns -1 regardless of the execution history; and
whenever a 4th-newest slice exists, that slice's range-start is the
eligibility threshold the heuristic scans with. -/
theorem claim_C1_selection (stats : List ChunkStatRecord) (job_id : Int) (ht : Hypertable) :
    (ht.open_dim.slices.length < 4 → get_chunk_id_to_reorder stats job_id ht = -1) ∧
    (∀ nth, ht.open_dim.slices.get? 3 = some nth →
        get_chunk_id_to_reorder stats job_id ht =
          ts_dimension_slice_oldest_chunk_without_executed_job stats job_id ht.open_dim
            nth.range_start) := by
  constructor
  · intro hlen
    have h : ht.open_dim.slices.get? 3 = none := List.get?_eq_none.mpr (by omega)
    rw [List.get?_eq_getElem?] at h
    simp [get_chunk_id_to_reorder, hyperspace_get_open_dimension,
      ts_dimension_slice_nth_latest_slice, REORDER_SKIP_RECENT_DIM_SLICES_N, h]
  · intro nth h
    rw [List.get?_eq_getElem?] at h
    simp [get_chunk_id_to_reorder, hyperspace_get_open_dimension,
      ts_dimension_slice_nth_latest_slice, REORDER_SKIP_RECENT_DIM_SLICES_N, h]

theorem claim_C1_selection_witness :
    htThree.open_dim.slices.length < 4 ∧ get_chunk_id_to_reorder [] 1 htThree = -1 :=
  ⟨by decide, (claim_C1_selection [] 1 htThree).1 (by decide)⟩

/-- C10: `enable_fast_restart` dereferences the run-stat lookup without a
NULL check: whenever the job has a run-stat row the call succeeds and sets
next-start to last-start, and whenever the row is missing the call hits
the NULL dereference. -/
theorem claim_C10_fast_restart_requires_stat :
    (∀ w (job : BgwJob) job_name stat, ts_bgw_job_stat_find w job.id = some stat →
        enable_fast_restart w job job_name =
          .ok (emit (ts_bgw_job_stat_set_next_start w job.id stat.last_start)
                (.logMsg (fastRestartLogMsg job_name)))) ∧
    (∀ w (job : BgwJob) job_name, ts_bgw_job_stat_find w job.id = none →
        enable_fast_restart w job job_name = .error ⟨.null_dereference, w.events⟩) := by
  constructor
  · intro w job job_name stat h
    simp [enable_fast_restart, h]
  · intro w job job_name h
    simp [enable_fast_restart, h]

/-- C2 (counterexample): the materialize executor, invoked while a
transaction is already open (`wMatOpen.inTxn = true`, empty event log),
nevertheless commits that transaction (a `txnCommit` event is emitted),
so it is not the case that every executor leaves a caller-owned
transaction boundary alone. -/
theorem claim_C2_counterexample :
    wMatOpen.inTxn = true ∧ wMatOpen.events = [] ∧
    execute_materialize_continuous_aggregate true jobMat wMatOpen =
      .ok ({ wMatOpen with
              events := [Event.txnCommit, Event.materialize 21, Event.txnStart] }, true) ∧
    Event.txnCommit ∈ [Event.txnCommit, Event.materialize 21, Event.txnStart] :=
  ⟨rfl, rfl, rfl, by decide⟩

/-- C2 (amended): the reorder and drop-chunks executors, invoked inside an
already-open transaction, emit no transaction start or commit at all, and
when standalone they start and commit exactly one transaction on every
successful exit path (including the no-op path).  The materialize
executor instead always commits the current transaction and starts a new
one around the materialization call, regardless of ownership; only its
final commit follows the ownership rule (one extra start/commit pair when
standalone, none when the caller owns the boundary). -/
theorem claim_C2_amended_txn_ownership :
    (∀ (job : BgwJob) (fc : Bool) (w : World) (r : World × Bool),
        w.inTxn = true → w.events = [] → execute_reorder_policy job fc w = .ok r →
        r.1.events.filter isTxnBoundaryEvent = []) ∧
    (∀ (job_id : Int) (w : World) (r : World × Bool),
        w.inTxn = true → w.events = [] → execute_drop_chunks_policy job_id w = .ok r →
        r.1.events.filter isTxnBoundaryEvent = []) ∧
    (∀ (job : BgwJob) (fc : Bool) (w : World) (r : World × Bool),
        w.inTxn = false → w.events = [] → execute_reorder_policy job fc w = .ok r →
        r.1.events.filter isTxnBoundaryEvent = [Event.txnStart, Event.txnCommit]) ∧
    (∀ (job_id : Int) (w : World) (r : World × Bool),
        w.inTxn = false → w.events = [] → execute_drop_chunks_policy job_id w = .ok r →
        r.1.events.filter isTxnBoundaryEvent = [Event.txnStart, Event.txnCommit]) ∧
    (∀ (f : Bool) (job : BgwJob) (w : World) (r : World × Bool),
        w.inTxn = true → w.events = [] →
        execute_materialize_continuous_aggregate f job w = .ok r →
        r.1.events.filter isTxnBoundaryEvent = [Event.txnCommit, Event.txnStart]) ∧
    (∀ (f : Bool) (job : BgwJob) (w : World) (r : World × Bool),
        w.inTxn = false → w.events = [] →
        execute_materialize_continuous_aggregate f job w = .ok r →
        r.1.events.filter isTxnBoundaryEvent =
          [Event.txnStart, Event.txnCommit, Event.txnStart, Event.txnCommit]) := by
  have reorder_filter : ∀ (job : BgwJob) (fc : Bool) (w : World) (r : World × Bool) (b : Bool),
      w.inTxn = b → w.events = [] → execute_reorder_policy job fc w = .ok r →
      r.1.events.filter isTxnBoundaryEvent =
        (if b then [] else [Event.txnStart, Event.txnCommit]) := by
    intro job fc w r b hIn hev h
    obtain ⟨-, args, ht, -, -, hcases⟩ := execute_reorder_policy_ok_inv job fc w r h
    rcases hcases with ⟨-, -, -, hev2⟩ | ⟨chunk, -, -, -, hsub⟩
    · rw [hev2, hIn, hev]; cases b <;> simp [isTxnBoundaryEvent]
    · rcases hsub with ⟨-, -, hev2⟩ | ⟨-, ⟨stat, -, -, hev2⟩⟩ <;>
        rw [hev2, hIn, hev] <;> cases b <;> simp [isTxnBoundaryEvent]
  have drop_filter : ∀ (job_id : Int) (w : World) (r : World × Bool) (b : Bool),
      w.inTxn = b → w.events = [] → execute_drop_chunks_policy job_id w = .ok r →
      r.1.events.filter isTxnBoundaryEvent =
        (if b then [] else [Event.txnStart, Event.txnCommit]) := by
    intro job_id w r b hIn hev h
    obtain ⟨-, args, ht, -, -, -, -, hev2⟩ := execute_drop_chunks_policy_ok_inv job_id w r h
    rw [hev2, hIn, hev]; cases b <;> simp [isTxnBoundaryEvent]
  have mat_filter : ∀ (f : Bool) (job : BgwJob) (w : World) (r : World × Bool) (b : Bool),
      w.inTxn = b → w.events = [] →
      execute_materialize_continuous_aggregate f job w = .ok r →
      r.1.events.filter isTxnBoundaryEvent =
        (if b then [Event.txnCommit, Event.txnStart]
         else [Event.txnStart, Event.txnCommit, Event.txnStart, Event.txnCommit]) := by
    intro f job w r b hIn hev h
    obtain ⟨-, -, -, hcases⟩ := execute_materialize_ok_inv f job w r h
    rcases hcases with ⟨-, -, hev2⟩ | ⟨-, ⟨stat, -, -, hev2⟩⟩ <;>
      rw [hev2, hIn, hev] <;> cases b <;> simp [isTxnBoundaryEvent]
  exact ⟨fun job fc w r h1 h2 h3 => by simpa using reorder_filter job fc w r true h1 h2 h3,
         fun jid w r h1 h2 h3 => by simpa using drop_filter jid w r true h1 h2 h3,
         fun job fc w r h1 h2 h3 => by simpa using reorder_filter job fc w r false h1 h2 h3,
         fun jid w r h1 h2 h3 => by simpa using drop_filter jid w r false h1 h2 h3,
         fun f job w r h1 h2 h3 => by simpa using mat_filter f job w r true h1 h2 h3,
         fun f job w r h1 h2 h3 => by simpa using mat_filter f job w r false h1 h2 h3⟩

theorem claim_C2_amended_txn_ownership_witness :
    execute_reorder_policy jobReorder true wReorderOpenNoWork =
      .ok (wReorderOpenNoWorkResult, true) ∧
    wReorderOpenNoWorkResult.events.filter isTxnBoundaryEvent = [] :=
  ⟨rfl, claim_C2_amended_txn_ownership.1 jobReorder true wReorderOpenNoWork
    (wReorderOpenNoWorkResult, true) rfl rfl rfl⟩

/-- C3: (i) the selection heuristic never returns a chunk that already has
an execution record for the job — it returns -1 or a different chunk, no
matter what slices the dimension has; (ii) the drop-chunks executor, the
materialize executor and the schedule-mutation function never touch the
execution-record table; (iii) a successful reorder run either leaves the
record table unchanged, or has invoked the reorder primitive on a chunk
and appended exactly the record (job, that chunk, now). -/
theorem claim_C3_no_reselect :
    (∀ (stats : List ChunkStatRecord) (job_id c t : Int) (ht : Hypertable),
        ChunkStatRecord.mk job_id c t ∈ stats →
        get_chunk_id_to_reorder stats job_id ht = -1 ∨
        get_chunk_id_to_reorder stats job_id ht ≠ c) ∧
    (∀ (job_id : Int) (w : World) (r : World × Bool),
        execute_drop_chunks_policy job_id w = .ok r → r.1.chunkStats = w.chunkStats) ∧
    (∀ (f : Bool) (job : BgwJob) (w : World) (r : World × Bool),
        execute_materialize_continuous_aggregate f job w = .ok r →
        r.1.chunkStats = w.chunkStats) ∧
    (∀ (a : AlterJobScheduleArgs) (w : World) (r : World × Option AlterJobScheduleTuple),
        bgw_policy_alter_job_schedule a w = .ok r → r.1.chunkStats = w.chunkStats) ∧
    (∀ (job : BgwJob) (fc : Bool) (w : World) (r : World × Bool),
        execute_reorder_policy job fc w = .ok r →
        r.1.chunkStats = w.chunkStats ∨
        ∃ cid, Event.reorderChunk cid ∈ r.1.events ∧
          r.1.chunkStats = w.chunkStats ++ [ChunkStatRecord.mk job.id cid w.currentTime]) := by
  refine ⟨?_, ?_, ?_, ?_, ?_⟩
  · intro stats job_id c t ht hmem
    simp only [get_chunk_id_to_reorder]
    cases hnth : ts_dimension_slice_nth_latest_slice (hyperspace_get_open_dimension ht)
        REORDER_SKIP_RECENT_DIM_SLICES_N with
    | none => exact Or.inl rfl
    | some nth =>
        rcases oldest_chunk_spec stats job_id (hyperspace_get_open_dimension ht)
            nth.range_start with hres | ⟨s, -, -, hnot, hres⟩
        · exact Or.inl hres
        · refine Or.inr ?_
          show ts_dimension_slice_oldest_chunk_without_executed_job stats job_id
              (hyperspace_get_open_dimension ht) nth.range_start ≠ c
          rw [hres]
          intro hc
          rw [hc] at hnot
          have : chunk_has_executed_job stats job_id c = true := by
            unfold chunk_has_executed_job
            exact List.any_eq_true.mpr ⟨⟨job_id, c, t⟩, hmem, by simp⟩
          rw [this] at hnot
          exact Bool.true_eq_false.mp hnot
  · intro job_id w r h
    obtain ⟨-, args, ht, -, -, hstats, -, -⟩ := execute_drop_chunks_policy_ok_inv job_id w r h
    exact hstats
  · intro f job w r h
    obtain ⟨-, -, hstats, -⟩ := execute_materialize_ok_inv f job w r h
    exact hstats
  · intro a w r h
    unfold bgw_policy_alter_job_schedule license_enforce_enterprise_enabled at h
    split at h
    · exact absurd h (by simp)
    · split at h
      · split at h
        · cases h; simp [emit]
        · exact absurd h (by simp)
      · unfold ts_bgw_job_permission_check at h
        split at h
        · exact absurd h (by simp)
        · cases h; simp [ts_bgw_job_update_by_id]
  · intro job fc w r h
    obtain ⟨-, args, ht, hargs, -, hcases⟩ := execute_reorder_policy_ok_inv job fc w r h
    have hjid : args.job_id = job.id := by
      have h2 := List.find?_some
        (by simpa [ts_bgw_policy_reorder_find_by_job] using hargs)
      simpa using h2
    rcases hcases with ⟨-, hstats, -, -⟩ | ⟨chunk, -, hchunk, hstats, hsub⟩
    · exact Or.inl hstats
    · have hcid : chunk.id = get_chunk_id_to_reorder w.chunkStats args.job_id ht := by
        have h2 := List.find?_some (by simpa [ts_chunk_get_by_id] using hchunk)
        simpa using h2
      refine Or.inr ⟨chunk.id, ?_, ?_⟩
      · rcases hsub with ⟨-, -, hev2⟩ | ⟨-, ⟨stat, -, -, hev2⟩⟩ <;>
          rw [hev2] <;> cases w.inTxn <;> simp
      · rw [hstats, hcid, hjid]

theorem claim_C3_no_reselect_witness :
    get_chunk_id_to_reorder [⟨1, 101, 5⟩] 1 htSix = -1 ∨
    get_chunk_id_to_reorder [⟨1, 101, 5⟩] 1 htSix ≠ 101 :=
  claim_C3_no_reselect.1 [⟨1, 101, 5⟩] 1 101 5 htSix (by decide)

/-- C4: in a completed reorder run with `fast_continue` set that reordered
a chunk (something was eligible), if the second selection — over the
record table extended with the just-appended record — still finds an
eligible chunk, a fast restart is requested (a next-start-set-to-last-start
write occurs); if it finds none, the run stats are untouched and no
next-start write occurs. -/
theorem claim_C4_fast_continue (job : BgwJob) (w : World) (r : World × Bool)
    (args : BgwPolicyReorder) (ht : Hypertable) (stat : BgwJobStat)
    (hargs : ts_bgw_policy_reorder_find_by_job w job.id = some args)
    (hht : ts_hypertable_get_by_id w args.hypertable_id = some ht)
    (hsel : get_chunk_id_to_reorder w.chunkStats args.job_id ht ≠ -1)
    (hstat : ts_bgw_job_stat_find w job.id = some stat)
    (hev : w.events = [])
    (hrun : execute_reorder_policy job true w = .ok r) :
    (get_chunk_id_to_reorder (w.chunkStats ++
        [⟨args.job_id, get_chunk_id_to_reorder w.chunkStats args.job_id ht, w.currentTime⟩])
        args.job_id ht ≠ -1 →
      Event.setNextStart job.id stat.last_start ∈ r.1.events ∧
      r.1.jobStats = w.jobStats.map (fun s =>
        if s.job_id == job.id then { s with next_start := stat.last_start } else s)) ∧
    (get_chunk_id_to_reorder (w.chunkStats ++
        [⟨args.job_id, get_chunk_id_to_reorder w.chunkStats args.job_id ht, w.currentTime⟩])
        args.job_id ht = -1 →
      (∀ jid t, Event.setNextStart jid t ∉ r.1.events) ∧ r.1.jobStats = w.jobStats) := by
  obtain ⟨-, args2, ht2, hargs2, hht2, hcases⟩ := execute_reorder_policy_ok_inv job true w r hrun
  rw [hargs] at hargs2
  obtain rfl : args = args2 := Option.some.inj hargs2
  rw [hht] at hht2
  obtain rfl : ht = ht2 := Option.some.inj hht2
  rcases hcases with ⟨hcid, -⟩ | ⟨chunk, hcid, hchunk, hstats, hsub⟩
  · exact absurd hcid hsel
  · constructor
    · intro h2
      rcases hsub with ⟨hcond, -, -⟩ | ⟨-, ⟨stat2, hstat2, hjs, hev2⟩⟩
      · rw [hstats] at hcond
        simp only [Bool.true_and, Bool.not_eq_false', beq_iff_eq] at hcond
        exact absurd hcond h2
      · rw [hstat] at hstat2
        obtain rfl : stat = stat2 := Option.some.inj hstat2
        refine ⟨?_, hjs⟩
        rw [hev2, hev]
        cases w.inTxn <;> simp
    · intro h2
      rcases hsub with ⟨-, hjs, hev2⟩ | ⟨hcond, ⟨stat2, -, -, -⟩⟩
      · refine ⟨?_, hjs⟩
        intro jid t
        rw [hev2, hev]
        cases w.inTxn <;> simp
      · rw [hstats] at hcond
        simp only [Bool.true_and, Bool.not_eq_true', beq_eq_false_iff_ne] at hcond
        exact absurd h2 (by simpa using hcond)

theorem claim_C4_fast_continue_witness :
    Event.setNextStart 1 900 ∈ wReorderRunResult.events :=
  ((claim_C4_fast_continue jobReorder wReorderRun (wReorderRunResult, true)
      ⟨1, 88, ("metrics_time_idx")⟩ htSix ⟨1, 900, 950⟩ rfl rfl (by decide) rfl rfl rfl).1
    (by decide)).1

/-- C5: every completed materialize run returns true; it performs the
next-start-set-to-last-start write (fast restart) exactly when the
materialization call reported unfinished work, and leaves the run stats
untouched when the work was reported complete. -/
theorem claim_C5_materialize_restart (f : Bool) (job : BgwJob) (w : World) (r : World × Bool)
    (stat : BgwJobStat)
    (hstat : ts_bgw_job_stat_find w job.id = some stat)
    (hev : w.events = [])
    (hrun : execute_materialize_continuous_aggregate f job w = .ok r) :
    r.2 = true ∧
    (f = false → Event.setNextStart job.id stat.last_start ∈ r.1.events ∧
      r.1.jobStats = w.jobStats.map (fun s =>
        if s.job_id == job.id then { s with next_start := stat.last_start } else s)) ∧
    (f = true → (∀ jid t, Event.setNextStart jid t ∉ r.1.events) ∧
      r.1.jobStats = w.jobStats) := by
  obtain ⟨hret, -, -, hcases⟩ := execute_materialize_ok_inv f job w r hrun
  refine ⟨hret, ?_, ?_⟩
  · intro hf
    rcases hcases with ⟨hf2, -⟩ | ⟨-, ⟨stat2, hstat2, hjs, hev2⟩⟩
    · rw [hf] at hf2; exact absurd hf2 (by simp)
    · rw [hstat] at hstat2
      obtain rfl : stat = stat2 := Option.some.inj hstat2
      refine ⟨?_, hjs⟩
      rw [hev2, hev]
      cases w.inTxn <;> simp
  · intro hf
    rcases hcases with ⟨-, hjs, hev2⟩ | ⟨hf2, -⟩
    · refine ⟨?_, hjs⟩
      intro jid t
      rw [hev2, hev]
      cases w.inTxn <;> simp
    · rw [hf] at hf2; exact absurd hf2 (by simp)

theorem claim_C5_materialize_restart_witness :
    Event.setNextStart 11 900 ∈ wMatClosedResult.events :=
  ((claim_C5_materialize_restart false jobMat wMatClosed (wMatClosedResult, true)
      ⟨11, 900, 950⟩ rfl rfl rfl).2.1 rfl).1

/-- C6: when the drop-chunks policy exists but its target hypertable does
not, the executor fails with the distinct hypertable-not-exist error kind
(not the generic internal-error kind), and no drop-primitive invocation
appears among the events performed before the error. -/
theorem claim_C6_drop_missing_table (job_id : Int) (w : World) (args : BgwPolicyDropChunks)
    (hev : w.events = [])
    (hargs : ts_bgw_policy_drop_chunks_find_by_job w job_id = some args)
    (hht : ts_hypertable_get_by_id w args.hypertable_id = none) :
    ∃ e, execute_drop_chunks_policy job_id w = .error e ∧
      e.kind = ErrKind.ts_hypertable_not_exist ∧ e.kind ≠ ErrKind.ts_internal_error ∧
      e.events.filter isDropChunksEvent = [] := by
  have hargs2 : List.find? (fun p => p.job_id == job_id) w.dropPolicies = some args := by
    simpa [ts_bgw_policy_drop_chunks_find_by_job] using hargs
  have hht2 : List.find? (fun h => h.id == args.hypertable_id) w.hypertables = none := by
    simpa [ts_hypertable_get_by_id] using hht
  cases hIn : w.inTxn
  · refine ⟨⟨.ts_hypertable_not_exist, [Event.txnStart, Event.pushSnapshot]⟩, ?_, rfl,
      by decide, by decide⟩
    simp [execute_drop_chunks_policy, hIn, emit, ts_bgw_policy_drop_chunks_find_by_job,
      ts_hypertable_get_by_id, hargs2, hht2, hev]
  · refine ⟨⟨.ts_hypertable_not_exist, []⟩, ?_, rfl, by decide, by decide⟩
    simp [execute_drop_chunks_policy, hIn, emit, ts_bgw_policy_drop_chunks_find_by_job,
      ts_hypertable_get_by_id, hargs2, hht2, hev]

theorem claim_C6_drop_missing_table_witness :
    ∃ e, execute_drop_chunks_policy 2 wDropMissingTable = .error e ∧
      e.kind = ErrKind.ts_hypertable_not_exist ∧ e.kind ≠ ErrKind.ts_internal_error ∧
      e.events.filter isDropChunksEvent = [] :=
  claim_C6_drop_missing_table 2 wDropMissingTable ⟨2, 99, 30, false, false⟩ rfl rfl rfl

/-- C7: `alter_job_schedule` on a missing job id returns the SQL-NULL
outcome with an informational notice and changes no persisted state when
`if_exists` is set, and fails with the undefined-object error kind when it
is not. -/
theorem claim_C7_alter_missing_job (a : AlterJobScheduleArgs) (w : World)
    (hlic : w.licenseEnterpriseEnabled = true)
    (hfind : ts_bgw_job_find w a.job_id = none) :
    (a.if_exists = true →
      ∃ w', bgw_policy_alter_job_schedule a w = .ok (w', none) ∧
        w'.jobs = w.jobs ∧ w'.jobStats = w.jobStats ∧ w'.chunkStats = w.chunkStats ∧
        w'.events = w.events ++
          [Event.logNotice ("cannot alter policy schedule, policy not found, skipping")]) ∧
    (a.if_exists = false →
      bgw_policy_alter_job_schedule a w = .error ⟨.undefined_object, w.events⟩) := by
  constructor
  · intro hif
    refine ⟨emit w (.logNotice ("cannot alter policy schedule, policy not found, skipping")),
      ?_, rfl, rfl, rfl, rfl⟩
    simp [bgw_policy_alter_job_schedule, license_enforce_enterprise_enabled, hlic, hfind, hif]
  · intro hif
    simp [bgw_policy_alter_job_schedule, license_enforce_enterprise_enabled, hlic, hfind, hif]

theorem claim_C7_alter_missing_job_witness :
    (∃ w', bgw_policy_alter_job_schedule ⟨404, none, none, none, none, true⟩ wAlter =
        .ok (w', none) ∧
      w'.jobs = wAlter.jobs ∧ w'.jobStats = wAlter.jobStats ∧
      w'.chunkStats = wAlter.chunkStats ∧
      w'.events = wAlter.events ++
        [Event.logNotice ("cannot alter policy schedule, policy not found, skipping")]) ∧
    bgw_policy_alter_job_schedule ⟨404, none, none, none, none, false⟩ wAlter =
      .error ⟨.undefined_object, []⟩ :=
  ⟨(claim_C7_alter_missing_job ⟨404, none, none, none, none, true⟩ wAlter rfl rfl).1 rfl,
   (claim_C7_alter_missing_job ⟨404, none, none, none, none, false⟩ wAlter rfl rfl).2 rfl⟩

/-- C8: on an existing job, `alter_job_schedule` applies exactly the
supplied (non-NULL) fields — each unsupplied field keeps its prior
persisted value — persists only that job, and returns the record built
from the prior values overlaid with the supplied ones; run stats,
execution records and the event log are untouched. -/
theorem claim_C8_alter_partial_update (a : AlterJobScheduleArgs) (w : World) (job0 : BgwJob)
    (hlic : w.licenseEnterpriseEnabled = true)
    (hfind : ts_bgw_job_find w a.job_id = some job0)
    (hperm : w.permissionDenied.contains job0.id = false) :
    ∃ w', bgw_policy_alter_job_schedule a w =
        .ok (w', some ⟨job0.id,
              a.schedule_interval.getD job0.schedule_interval,
              a.max_runtime.getD job0.max_runtime,
              a.max_retries.getD job0.max_retries,
              a.retry_period.getD job0.retry_period⟩) ∧
      w'.jobs = w.jobs.map (fun j => if j.id == a.job_id then
        { job0 with
          schedule_interval := a.schedule_interval.getD job0.schedule_interval,
          max_runtime := a.max_runtime.getD job0.max_runtime,
          max_retries := a.max_retries.getD job0.max_retries,
          retry_period := a.retry_period.getD job0.retry_period } else j) ∧
      w'.jobStats = w.jobStats ∧ w'.chunkStats = w.chunkStats ∧ w'.events = w.events := by
  refine ⟨ts_bgw_job_update_by_id w a.job_id
    { job0 with
      schedule_interval := a.schedule_interval.getD job0.schedule_interval,
      max_runtime := a.max_runtime.getD job0.max_runtime,
      max_retries := a.max_retries.getD job0.max_retries,
      retry_period := a.retry_period.getD job0.retry_period }, ?_, rfl, rfl, rfl, rfl⟩
  have hperm2 : job0.id ∉ w.permissionDenied := by simpa using hperm
  simp [bgw_policy_alter_job_schedule, license_enforce_enterprise_enabled, hlic, hfind,
    ts_bgw_job_permission_check, hperm2]

theorem claim_C8_alter_partial_update_witness :
    ∃ w', bgw_policy_alter_job_schedule ⟨5, none, none, some 7, none, false⟩ wAlter =
        .ok (w', some ⟨5, 100, 10, 7, 5⟩) ∧
      w'.jobs = [⟨5, BgwJobType.reorder, 100, 10, 7, 5⟩] ∧
      w'.jobStats = wAlter.jobStats ∧ w'.chunkStats = wAlter.chunkStats ∧
      w'.events = wAlter.events :=
  claim_C8_alter_partial_update ⟨5, none, none, some 7, none, false⟩ wAlter
    ⟨5, BgwJobType.reorder, 100, 10, 3, 5⟩ rfl rfl rfl

/-- C9: the license question is answered positively exactly for the
reorder and drop-chunks job types (materialize needs none, an unknown
type is a fatal internal error); the dispatcher blocks gated types with
the license error before any executor effect when the entitlement is
inactive, routes each recognized type to its executor otherwise
(materialize regardless of the entitlement), and `alter_job_schedule`
enforces the same gate unconditionally before the job lookup. -/
theorem claim_C9_license_gate :
    (∀ (job : BgwJob) (w : World), job.bgw_type = BgwJobType.reorder →
        bgw_policy_job_requires_enterprise_license job w = .ok true) ∧
    (∀ (job : BgwJob) (w : World), job.bgw_type = BgwJobType.drop_chunks →
        bgw_policy_job_requires_enterprise_license job w = .ok true) ∧
    (∀ (job : BgwJob) (w : World), job.bgw_type = BgwJobType.continuous_aggregate →
        bgw_policy_job_requires_enterprise_license job w = .ok false) ∧
    (∀ (f : Bool) (job : BgwJob) (w : World), w.licenseEnterpriseEnabled = false →
        (job.bgw_type = BgwJobType.reorder ∨ job.bgw_type = BgwJobType.drop_chunks) →
        tsl_bgw_policy_job_execute f job w = .error ⟨.license_not_enabled, w.events⟩) ∧
    (∀ (f : Bool) (job : BgwJob) (w : World), w.licenseEnterpriseEnabled = true →
        job.bgw_type = BgwJobType.reorder →
        tsl_bgw_policy_job_execute f job w = execute_reorder_policy job true w) ∧
    (∀ (f : Bool) (job : BgwJob) (w : World), w.licenseEnterpriseEnabled = true →
        job.bgw_type = BgwJobType.drop_chunks →
        tsl_bgw_policy_job_execute f job w = execute_drop_chunks_policy job.id w) ∧
    (∀ (f : Bool) (job : BgwJob) (w : World), job.bgw_type = BgwJobType.continuous_aggregate →
        tsl_bgw_policy_job_execute f job w =
          execute_materialize_continuous_aggregate f job w) ∧
    (∀ (f : Bool) (job : BgwJob) (w : World), job.bgw_type = BgwJobType.unknown →
        tsl_bgw_policy_job_execute f job w = .error ⟨.internal_elog, w.events⟩) ∧
    (∀ (a : AlterJobScheduleArgs) (w : World), w.licenseEnterpriseEnabled = false →
        bgw_policy_alter_job_schedule a w = .error ⟨.license_not_enabled, w.events⟩) := by
  refine ⟨?_, ?_, ?_, ?_, ?_, ?_, ?_, ?_, ?_⟩
  · intro job w ht
    simp [bgw_policy_job_requires_enterprise_license, ht]
  · intro job w ht
    simp [bgw_policy_job_requires_enterprise_license, ht]
  · intro job w ht
    simp [bgw_policy_job_requires_enterprise_license, ht]
  · intro f job w hlic ht
    rcases ht with ht | ht <;>
      simp [tsl_bgw_policy_job_execute, bgw_policy_job_requires_enterprise_license,
        license_enforce_enterprise_enabled, hlic, ht]
  · intro f job w hlic ht
    simp [tsl_bgw_policy_job_execute, bgw_policy_job_requires_enterprise_license,
      license_enforce_enterprise_enabled, hlic, ht]
  · intro f job w hlic ht
    simp [tsl_bgw_policy_job_execute, bgw_policy_job_requires_enterprise_license,
      license_enforce_enterprise_enabled, hlic, ht]
  · intro f job w ht
    simp [tsl_bgw_policy_job_execute, bgw_policy_job_requires_enterprise_license,
      license_enforce_enterprise_enabled, ht]
  · intro f job w ht
    simp [tsl_bgw_policy_job_execute, bgw_policy_job_requires_enterprise_license, ht]
  · intro a w hlic
    simp [bgw_policy_alter_job_schedule, license_enforce_enterprise_enabled, hlic]

theorem claim_C9_license_gate_witness :
    tsl_bgw_policy_job_execute true jobReorder wNoLicense =
      .error ⟨.license_not_enabled, []⟩ ∧
    bgw_policy_alter_job_schedule ⟨5, none, none, none, none, false⟩ wNoLicense =
      .error ⟨.license_not_enabled, []⟩ :=
  ⟨claim_C9_license_gate.2.2.2.1 true jobReorder wNoLicense rfl (Or.inl rfl),
   claim_C9_license_gate.2.2.2.2.2.2.2.2 ⟨5, none, none, none, none, false⟩ wNoLicense rfl⟩

theorem claim_C10_fast_restart_requires_stat_witness :
    enable_fast_restart wNoStat jobReorder ("reorder") = .error ⟨.null_dereference, []⟩ ∧
    enable_fast_restart wReorderRun jobReorder ("reorder") =
      .ok (emit (ts_bgw_job_stat_set_next_start wReorderRun 1 900)
            (.logMsg (fastRestartLogMsg ("reorder")))) :=
  ⟨claim_C10_fast_restart_requires_stat.2 wNoStat jobReorder ("reorder") rfl,
   claim_C10_fast_restart_requires_stat.1 wReorderRun jobReorder ("reorder") ⟨1, 900, 950⟩ rfl⟩

end TsBgwPolicy
